import Mathlib

/-!
Shallow embedding of the motion model of the qCardGaming minigames.

Floats in the Python source are read as real numbers; `math.hypot` becomes
`Real.sqrt` of the sum of squares; Python `int()` on a float becomes
truncation toward zero; sprite `kill()` is modelled by an explicit flag or an
`Option` result.  Each definition mirrors one function of the source:

* `QCG.Enemy.*`       : src/games/tower_defense/sprites.py, class Enemy
* `QCG.Projectile.*`  : src/games/tower_defense/sprites.py, class Projectile
* `QCG.Space.*`       : src/games/space_game (sprites.py Bullet, game.py
                        bullet firing and proximity-hit resolution)
-/

namespace QCG

noncomputable section

/-- Python `math.hypot x y`: the Euclidean norm of the vector `(x, y)`. -/
def hypot (x y : ℝ) : ℝ := Real.sqrt (x ^ 2 + y ^ 2)

/-- Python `int(x)` on a float: truncation toward zero. -/
def pyInt (x : ℝ) : ℤ := if 0 ≤ x then ⌊x⌋ else ⌈x⌉

/-! ### Tower defense: Enemy (path follower)

Mirror of class `Enemy` in src/games/tower_defense/sprites.py.  The state
carries exactly the mutable attributes of the Python object that the motion
logic touches; `rectCenter` is the sprite rectangle's center, which pygame
recovers exactly after the `rect.centerx = int(...)` assignments. -/

structure Enemy where
  path : List (ℝ × ℝ)
  speed : ℝ
  path_index : ℕ
  rush : Bool
  goal_index : Option ℕ
  dead : Bool
  pos : ℝ × ℝ
  rectCenter : ℤ × ℤ

/-- `Enemy.__init__` (geometry-relevant part). -/
def Enemy.init (path : List (ℝ × ℝ)) (speed : ℝ) : Enemy :=
  let start := path.headD (0, 0)
  { path := path
    speed := speed
    path_index := 0
    rush := false
    goal_index := none
    dead := false
    pos := start
    rectCenter := (pyInt start.1, pyInt start.2) }

/-- `Enemy.update(dt)`.  Early-outs when dead or the path is empty; otherwise
steps toward `path[(path_index + 1) % len(path)]`, snapping to the waypoint
when the tick's step reaches it, then refreshes the rect from `int(pos)`. -/
def Enemy.update (e : Enemy) (dt : ℝ) : Enemy :=
  if e.dead then e
  else if e.path.isEmpty then e
  else
    let nextIdx := (e.path_index + 1) % e.path.length
    let tgt := e.path.getD nextIdx (0, 0)
    let dx := tgt.1 - e.pos.1
    let dy := tgt.2 - e.pos.2
    let dist := hypot dx dy
    let e1 :=
      if dist ≤ 1e-6 then { e with path_index := nextIdx }
      else
        let sp := if e.rush then e.speed * 1.8 else e.speed
        let step := sp * dt
        if step ≥ dist then { e with pos := tgt, path_index := nextIdx }
        else { e with pos := (e.pos.1 + dx / dist * step, e.pos.2 + dy / dist * step) }
    { e1 with rectCenter := (pyInt e1.pos.1, pyInt e1.pos.2) }

/-- One iteration of the nearest-waypoint scan in `Enemy.set_rush_to_goal`:
the accumulator is `(best, bestd)`, the element is `(i, (px, py))`. -/
def bestStep (gx gy : ℝ) (acc : ℕ × Option ℝ) (ip : ℕ × (ℝ × ℝ)) : ℕ × Option ℝ :=
  let d := (ip.2.1 - gx) ^ 2 + (ip.2.2 - gy) ^ 2
  match acc.2 with
  | none => (ip.1, some d)
  | some bd => if d < bd then (ip.1, some d) else acc

/-- `Enemy.set_rush_to_goal(goal_pos)`. -/
def Enemy.set_rush_to_goal (e : Enemy) (goal : ℝ × ℝ) : Enemy :=
  if e.path.isEmpty then { e with rush := true, goal_index := none }
  else
    let best := (e.path.enum.foldl (bestStep goal.1 goal.2) (0, none)).1
    { e with rush := true, goal_index := some best }

/-- `Enemy.reached_goal_on_path(threshold)`.  Returns `none` exactly where the
Python code would raise an IndexError (`goal_index` set but out of range). -/
def Enemy.reached_goal_on_path (e : Enemy) (threshold : ℝ) : Option Bool :=
  if !e.rush then some false
  else
    match e.goal_index with
    | none => some false
    | some g =>
      match e.path.get? g with
      | none => none
      | some gpt =>
        let dx := e.pos.1 - gpt.1
        let dy := e.pos.2 - gpt.2
        some (decide (dx * dx + dy * dy ≤ threshold * threshold))

/-- `Enemy.stop_rush()`. -/
def Enemy.stop_rush (e : Enemy) : Enemy := { e with rush := false, goal_index := none }

/-! ### Tower defense: Projectile

Mirror of class `Projectile` in src/games/tower_defense/sprites.py.  A killed
projectile is modelled by `Option` (`none` after `self.kill()`). -/

structure Projectile where
  start : ℝ × ℝ
  target : ℝ × ℝ
  speed : ℝ
  pos : ℝ × ℝ
  vx : ℝ
  vy : ℝ
  rectCenter : ℤ × ℤ

/-- `Projectile.__init__(start_pos, target_pos, speed)`.  The Python line
`dist = math.hypot(dx, dy) or 1.0` replaces a zero distance by `1.0`. -/
def Projectile.init (start_pos target_pos : ℝ × ℝ) (speed : ℝ) : Projectile :=
  let dx := target_pos.1 - start_pos.1
  let dy := target_pos.2 - start_pos.2
  let h0 := hypot dx dy
  let dist := if h0 = 0 then 1 else h0
  { start := start_pos
    target := target_pos
    speed := speed
    pos := start_pos
    vx := dx / dist * speed
    vy := dy / dist * speed
    rectCenter := (pyInt start_pos.1, pyInt start_pos.2) }

/-- `Projectile.update(dt)`: kill (without moving) when the tick's step is at
least the remaining distance to the stored target point, else advance. -/
def Projectile.update (p : Projectile) (dt : ℝ) : Option Projectile :=
  let stepX := p.vx * dt
  let stepY := p.vy * dt
  let dx := p.target.1 - p.pos.1
  let dy := p.target.2 - p.pos.2
  let dist := hypot dx dy
  if hypot stepX stepY ≥ dist then none
  else
    let nx := p.pos.1 + stepX
    let ny := p.pos.2 + stepY
    some { p with pos := (nx, ny), rectCenter := (pyInt nx, pyInt ny) }

/-- Iterated `Projectile.update` over a list of tick durations; `none` as soon
as the projectile kills itself. -/
def Projectile.run : Projectile → List ℝ → Option Projectile
  | p, [] => some p
  | p, dt :: rest =>
    match p.update dt with
    | none => none
    | some q => Projectile.run q rest

/-! ### Space game

Mirrors of src/games/space_game: the bullet-velocity computation in
`SpaceGame.run` (game.py lines 374-392), class `Bullet` in sprites.py, and the
proximity-hit resolution in `SpaceGame.run` (game.py lines 601-628, duplicated
in src/games2Build/space_game.py lines 188-205). -/

namespace Space

/-- `BULLET_SPEED_MAG` from src/games/space_game/helpers.py. -/
def BULLET_SPEED_MAG : ℝ := 12

/-- screen width from helpers.py. -/
def SCREEN_W : ℤ := 800

/-- screen height from helpers.py. -/
def SCREEN_H : ℤ := 600

/-- The bullet-velocity computation of `SpaceGame.run` on a correct answer:
direction from the player's muzzle to the chosen enemy center, scaled to
`BULLET_SPEED_MAG`, with a straight-up fallback when the distance is `≤ 0.1`. -/
def fireVelocity (start tgt : ℝ × ℝ) : ℝ × ℝ :=
  let dx := tgt.1 - start.1
  let dy := tgt.2 - start.2
  let dist := hypot dx dy
  if dist ≤ 0.1 then (0, -BULLET_SPEED_MAG)
  else (dx / dist * BULLET_SPEED_MAG, dy / dist * BULLET_SPEED_MAG)

/-- Class `Bullet` of src/games/space_game/sprites.py (same update logic as the
cowboy-shooter `Bullet`).  `w`, `h` are the sprite surface size; `cx`, `cy` the
rect center (pygame stores the topleft as integers; reading the center back
after `rect.centerx = v` returns exactly `v`, so the center is the state). -/
structure Bullet where
  posx : ℝ
  posy : ℝ
  vx : ℝ
  vy : ℝ
  w : ℕ
  h : ℕ
  cx : ℤ
  cy : ℤ
  killed : Bool

/-- `Bullet.__init__(x, y, vx, vy)` (geometry-relevant part). -/
def Bullet.init (x y : ℤ) (vx vy : ℝ) (w h : ℕ) : Bullet :=
  { posx := x, posy := y, vx := vx, vy := vy, w := w, h := h
    cx := x, cy := y, killed := false }

/-- `Bullet.update()` with screen bounds `sw`, `sh`: advance the float
position by the velocity, refresh the rect from `int(pos)`, then `kill()` when
the rect is beyond the screen expanded by 50 units on the relevant side.
The rect sides follow pygame: `left = centerx - w // 2`, `right = left + w`,
`top = centery - h // 2`, `bottom = top + h`. -/
def Bullet.update (sw sh : ℤ) (b : Bullet) : Bullet :=
  let px := b.posx + b.vx
  let py := b.posy + b.vy
  let ncx := pyInt px
  let ncy := pyInt py
  let lft := ncx - (b.w / 2 : ℕ)
  let top := ncy - (b.h / 2 : ℕ)
  let rgt := lft + (b.w : ℤ)
  let bot := top + (b.h : ℤ)
  { b with posx := px, posy := py, cx := ncx, cy := ncy
           killed := decide (bot < -50 ∨ top > sh + 50 ∨ lft > sw + 50 ∨ rgt < -50) }

/-- `max(14, (target_width + target_height) // 6)` from the proximity-hit
resolution. -/
def collisionRadius (w h : ℕ) : ℕ := max 14 ((w + h) / 6)

/-- The per-hit side effects tracked by the proximity resolution: the score
counter and both sprites' liveness. -/
structure HitState where
  score : ℤ
  bulletAlive : Bool
  targetAlive : Bool

/-- The body of the forced-hit-via-proximity loop in `SpaceGame.run` for the
bullet whose target is the pending target: `(px, py)` is `b.posx, b.posy`,
`(tx, ty)` the target rect center, `w, h` the target rect size. -/
def resolveProximity (px py tx ty : ℝ) (w h : ℕ) (s : HitState) : HitState :=
  let dist := hypot (px - tx) (py - ty)
  if dist ≤ (collisionRadius w h : ℝ) then
    { score := s.score + 100, bulletAlive := false, targetAlive := false }
  else s

end Space

/-! ### Auxiliary state predicates and concrete data used by the theorems -/

/-- The square path of the loop-follower scenario. -/
def sqPath : List (ℝ × ℝ) := [(0, 0), (10, 0), (10, 10), (0, 10)]

/-- The only state invariant `Enemy.reached_goal_on_path` needs in order not
to raise: a set goal index is in range. -/
def goalInv (e : Enemy) : Prop := ∀ g, e.goal_index = some g → g < e.path.length

/-- Invariant of a tower projectile fired from `s` at `t` with speed `sp`:
the target snapshot and velocity are the ones set at creation, and the
position sits on the segment from `s` to `t`, strictly before `t`. -/
def ProjInv (s t : ℝ × ℝ) (sp : ℝ) (p : Projectile) : Prop :=
  p.target = t ∧
  p.vx = (t.1 - s.1) / hypot (t.1 - s.1) (t.2 - s.2) * sp ∧
  p.vy = (t.2 - s.2) / hypot (t.1 - s.1) (t.2 - s.2) * sp ∧
  ∃ k, 0 ≤ k ∧ k < 1 ∧ p.pos = (s.1 + k * (t.1 - s.1), s.2 + k * (t.2 - s.2))

/-! ## Theorems -/

/-! ### Basic facts about `hypot` -/

theorem hypot_nonneg (x y : ℝ) : 0 ≤ hypot x y := Real.sqrt_nonneg _

theorem hypot_eq_zero_iff (x y : ℝ) : hypot x y = 0 ↔ x = 0 ∧ y = 0 := by
  unfold hypot
  rw [Real.sqrt_eq_zero (by positivity)]
  constructor
  · intro h
    constructor
    · have hx : x ^ 2 = 0 := by nlinarith [sq_nonneg x, sq_nonneg y]
      exact pow_eq_zero_iff (two_ne_zero) |>.mp hx
    · have hy : y ^ 2 = 0 := by nlinarith [sq_nonneg x, sq_nonneg y]
      exact pow_eq_zero_iff (two_ne_zero) |>.mp hy
  · rintro ⟨hx, hy⟩
    simp [hx, hy]

theorem hypot_pos_of_ne (x y : ℝ) (h : ¬(x = 0 ∧ y = 0)) : 0 < hypot x y := by
  rcases lt_or_eq_of_le (hypot_nonneg x y) with h1 | h1
  · exact h1
  · exact absurd ((hypot_eq_zero_iff x y).mp h1.symm) h

theorem hypot_abs_left (x : ℝ) : hypot x 0 = |x| := by
  unfold hypot; rw [show x ^ 2 + 0 ^ 2 = x ^ 2 by ring, Real.sqrt_sq_eq_abs]

theorem hypot_abs_right (y : ℝ) : hypot 0 y = |y| := by
  unfold hypot; rw [show 0 ^ 2 + y ^ 2 = y ^ 2 by ring, Real.sqrt_sq_eq_abs]

/-- `hypot` of a scaled vector. -/
theorem hypot_smul (c x y : ℝ) : hypot (c * x) (c * y) = |c| * hypot x y := by
  unfold hypot
  rw [show (c * x) ^ 2 + (c * y) ^ 2 = c ^ 2 * (x ^ 2 + y ^ 2) by ring,
    Real.sqrt_mul (by positivity), Real.sqrt_sq_eq_abs]

/-- Comparison of `hypot` with a nonnegative bound, squared. -/
theorem hypot_le_iff (x y r : ℝ) (hr : 0 ≤ r) :
    hypot x y ≤ r ↔ x ^ 2 + y ^ 2 ≤ r ^ 2 := by
  unfold hypot
  rw [show r = Real.sqrt (r ^ 2) by rw [Real.sqrt_sq hr],
    Real.sqrt_le_sqrt_iff (by positivity), Real.sqrt_sq hr]

theorem hypot_eq_iff (x y r : ℝ) (hr : 0 ≤ r) :
    hypot x y = r ↔ x ^ 2 + y ^ 2 = r ^ 2 := by
  unfold hypot
  rw [Real.sqrt_eq_iff_eq_sq (by positivity) hr]

/-! ### Structural facts about `Enemy.update` -/

theorem Enemy.update_path (e : Enemy) (dt : ℝ) : (e.update dt).path = e.path := by
  unfold Enemy.update
  dsimp only
  split_ifs <;> rfl

theorem Enemy.update_goal (e : Enemy) (dt : ℝ) :
    (e.update dt).goal_index = e.goal_index := by
  unfold Enemy.update
  dsimp only
  split_ifs <;> rfl

theorem Enemy.update_index (e : Enemy) (dt : ℝ) :
    (e.update dt).path_index = e.path_index ∨
      (e.update dt).path_index = (e.path_index + 1) % e.path.length := by
  unfold Enemy.update
  dsimp only
  split_ifs <;> first | exact Or.inl rfl | exact Or.inr rfl

/-- The nearest-waypoint scan never leaves the index range of the scanned
list: every candidate it may select is a first component of a scanned pair. -/
theorem foldl_bestStep_lt (gx gy : ℝ) (n : ℕ) :
    ∀ (l : List (ℕ × (ℝ × ℝ))) (acc : ℕ × Option ℝ),
      (∀ x ∈ l, x.1 < n) → acc.1 < n →
      (l.foldl (bestStep gx gy) acc).1 < n := by
  intro l
  induction l with
  | nil => intro acc _ hacc; simpa using hacc
  | cons x xs ih =>
    intro acc hl hacc
    rw [List.foldl_cons]
    apply ih
    · intro z hz; exact hl z (List.mem_cons_of_mem _ hz)
    · unfold bestStep
      dsimp only
      cases hacc2 : acc.2 with
      | none => exact hl x (List.mem_cons_self _ _)
      | some bd =>
        dsimp only
        split_ifs
        · exact hl x (List.mem_cons_self _ _)
        · exact hacc

theorem set_rush_to_goal_goalInv (e : Enemy) (g : ℝ × ℝ) :
    goalInv (e.set_rush_to_goal g) := by
  intro i hi
  unfold Enemy.set_rush_to_goal at hi ⊢
  by_cases hp : e.path.isEmpty
  · simp [hp] at hi
  · simp only [hp, Bool.false_eq_true, if_false] at hi ⊢
    simp only [Option.some.injEq] at hi
    subst hi
    apply foldl_bestStep_lt
    · intro x hx
      have := List.mem_enum_iff_get?.mp hx
      exact (List.get?_eq_some.mp this).1
    · have : e.path ≠ [] := by
        intro h; rw [h] at hp; exact hp rfl
      exact List.length_pos.mpr this

theorem update_goalInv (e : Enemy) (dt : ℝ) (h : goalInv e) :
    goalInv (e.update dt) := by
  intro g hg
  rw [Enemy.update_path]
  exact h g (by rwa [Enemy.update_goal] at hg)

theorem reached_isSome (e : Enemy) (th : ℝ) (h : goalInv e) :
    (e.reached_goal_on_path th).isSome = true := by
  unfold Enemy.reached_goal_on_path
  by_cases hr : e.rush
  · simp only [hr, Bool.not_true, Bool.false_eq_true, if_false]
    cases hg : e.goal_index with
    | none => rfl
    | some g =>
      dsimp only
      rw [List.get?_eq_get (h g hg)]
      rfl
  · simp [hr]

/-- C9: the path-follower operations are total: the per-tick advance on an
empty path changes nothing, `set_rush_to_goal` on an empty path records no
goal index instead of failing, and `reached_goal_on_path` never hits an
out-of-range goal index on any state produced by the class's own operations
(the goal index, when set, is always in range). -/
theorem follower_ops_total :
    (∀ (e : Enemy) (dt : ℝ), e.path = [] → e.update dt = e) ∧
    (∀ (e : Enemy) (g : ℝ × ℝ), e.path = [] →
        (e.set_rush_to_goal g).goal_index = none) ∧
    (∀ (p : List (ℝ × ℝ)) (sp : ℝ), goalInv (Enemy.init p sp)) ∧
    (∀ (e : Enemy) (dt : ℝ), goalInv e → goalInv (e.update dt)) ∧
    (∀ (e : Enemy) (g : ℝ × ℝ), goalInv (e.set_rush_to_goal g)) ∧
    (∀ (e : Enemy), goalInv e.stop_rush) ∧
    (∀ (e : Enemy) (th : ℝ), goalInv e →
        (e.reached_goal_on_path th).isSome = true) := by
  refine ⟨?_, ?_, ?_, update_goalInv, set_rush_to_goal_goalInv, ?_, reached_isSome⟩
  · intro e dt h
    unfold Enemy.update
    rw [h]
    simp
  · intro e g h
    unfold Enemy.set_rush_to_goal
    rw [h]
    simp
  · intro p sp g hg
    simp [Enemy.init] at hg
  · intro e g hg
    simp [Enemy.stop_rush] at hg

/-- C9 witness: on a concrete enemy with an empty path, the per-tick advance
is the identity. -/
theorem follower_ops_total_witness :
    (Enemy.init [] 5).path = [] ∧ (Enemy.init [] 5).update 1 = Enemy.init [] 5 :=
  ⟨rfl, follower_ops_total.1 (Enemy.init [] 5) 1 rfl⟩

/-- C8: in looping mode the waypoint index only advances forward: one tick
leaves it unchanged or moves it to the next index modulo the path length, so
it never decreases (except by wrapping) and never skips a waypoint. -/
theorem looping_index_advances (e : Enemy) (dt : ℝ) (h : e.rush = false) :
    (e.update dt).path_index = e.path_index ∨
      (e.update dt).path_index = (e.path_index + 1) % e.path.length :=
  Enemy.update_index e dt

/-- C8 witness at a concrete looping enemy. -/
theorem looping_index_advances_witness :
    (Enemy.init sqPath 10).rush = false ∧
      (((Enemy.init sqPath 10).update 1).path_index = (Enemy.init sqPath 10).path_index ∨
        ((Enemy.init sqPath 10).update 1).path_index =
          ((Enemy.init sqPath 10).path_index + 1) % (Enemy.init sqPath 10).path.length) :=
  ⟨rfl, looping_index_advances (Enemy.init sqPath 10) 1 rfl⟩

/-- C1: the code of `reached_goal_on_path` contradicts its own docstring (and
the spec): it never compares `path_index` with `goal_index`.  On the path
`[(0,0), (10,0)]` with the enemy still at waypoint 0, `set_rush_to_goal (10,0)`
selects goal index 1 (the squared-distance-closest waypoint), yet
`reached_goal_on_path` already returns `true` because the enemy is within the
default threshold 12 of waypoint 1 while its current index is 0. -/
theorem reached_goal_ignores_index_bug :
    ((Enemy.init [((0:ℝ), (0:ℝ)), ((10:ℝ), (0:ℝ))] 60).set_rush_to_goal
        (10, 0)).path_index = 0 ∧
    ((Enemy.init [((0:ℝ), (0:ℝ)), ((10:ℝ), (0:ℝ))] 60).set_rush_to_goal
        (10, 0)).goal_index = some 1 ∧
    ((Enemy.init [((0:ℝ), (0:ℝ)), ((10:ℝ), (0:ℝ))] 60).set_rush_to_goal
        (10, 0)).reached_goal_on_path 12 = some true := by
  refine ⟨?_, ?_, ?_⟩
  · rfl
  · unfold Enemy.set_rush_to_goal Enemy.init
    norm_num [List.enum, List.enumFrom, bestStep]
  · unfold Enemy.reached_goal_on_path Enemy.set_rush_to_goal Enemy.init
    norm_num [List.enum, List.enumFrom, bestStep, List.get?]

/-- C6: a targetless bullet's per-tick update destroys it exactly when, after
the position advance, its rect lies beyond the screen expanded by a 50-unit
margin on the corresponding side; the float position always advances by the
velocity. -/
theorem bullet_offscreen_kill (sw sh : ℤ) (b : Space.Bullet) :
    ((Space.Bullet.update sw sh b).killed = true ↔
      (pyInt (b.posy + b.vy) - (b.h / 2 : ℕ) + (b.h : ℤ) < -50 ∨
       pyInt (b.posy + b.vy) - (b.h / 2 : ℕ) > sh + 50 ∨
       pyInt (b.posx + b.vx) - (b.w / 2 : ℕ) > sw + 50 ∨
       pyInt (b.posx + b.vx) - (b.w / 2 : ℕ) + (b.w : ℤ) < -50)) ∧
    (Space.Bullet.update sw sh b).posx = b.posx + b.vx ∧
    (Space.Bullet.update sw sh b).posy = b.posy + b.vy := by
  unfold Space.Bullet.update
  dsimp only
  refine ⟨?_, rfl, rfl⟩
  simp [decide_eq_true_eq]

/-- Magnitude of a velocity obtained by normalizing `(dx, dy)` and scaling by
a nonnegative speed. -/
theorem hypot_scaled_velocity (dx dy sp : ℝ) (h : ¬(dx = 0 ∧ dy = 0))
    (hsp : 0 ≤ sp) :
    hypot (dx / hypot dx dy * sp) (dy / hypot dx dy * sp) = sp := by
  have hD : 0 < hypot dx dy := hypot_pos_of_ne dx dy h
  have e1 : dx / hypot dx dy * sp = sp / hypot dx dy * dx := by ring
  have e2 : dy / hypot dx dy * sp = sp / hypot dx dy * dy := by ring
  rw [e1, e2, hypot_smul, abs_of_nonneg (div_nonneg hsp hD.le),
    div_mul_cancel₀ sp (ne_of_gt hD)]

/-- C5: the proximity resolution scores a hit exactly when the distance from
the bullet's float position to the pending target's center is at most
`max 14 ((w + h) / 6)`: then bullet and target die and 100 points are added;
at distance `radius + 1` nothing is resolved. -/
theorem proximity_hit_radius (px py tx ty : ℝ) (w h : ℕ) (s : Space.HitState) :
    (hypot (px - tx) (py - ty) ≤ (Space.collisionRadius w h : ℝ) →
      Space.resolveProximity px py tx ty w h s =
        ⟨s.score + 100, false, false⟩) ∧
    (¬ hypot (px - tx) (py - ty) ≤ (Space.collisionRadius w h : ℝ) →
      Space.resolveProximity px py tx ty w h s = s) ∧
    (hypot (px - tx) (py - ty) = (Space.collisionRadius w h : ℝ) + 1 →
      Space.resolveProximity px py tx ty w h s = s) := by
  unfold Space.resolveProximity
  dsimp only
  refine ⟨fun hd => by rw [if_pos hd], fun hd => by rw [if_neg hd], fun hd => ?_⟩
  have hn : ¬ hypot (px - tx) (py - ty) ≤ (Space.collisionRadius w h : ℝ) := by
    rw [hd]
    intro hc
    linarith
  rw [if_neg hn]

/-- C5 witness: a 40x30 target gives radius `max 14 11 = 14`; a bullet at
distance exactly 14 resolves the hit and scores 100. -/
theorem proximity_hit_radius_witness :
    hypot ((14:ℝ) - 0) ((0:ℝ) - 0) ≤ ((Space.collisionRadius 40 30 : ℕ) : ℝ) ∧
      Space.resolveProximity 14 0 0 0 40 30 ⟨0, true, true⟩ =
        ⟨(0:ℤ) + 100, false, false⟩ := by
  have hr : Space.collisionRadius 40 30 = 14 := by norm_num [Space.collisionRadius]
  have h1 : hypot ((14:ℝ) - 0) ((0:ℝ) - 0) ≤ ((Space.collisionRadius 40 30 : ℕ) : ℝ) := by
    rw [hr, show (14:ℝ) - 0 = 14 by ring, show (0:ℝ) - 0 = 0 by ring, hypot_abs_left]
    norm_num
  exact ⟨h1, (proximity_hit_radius 14 0 0 0 40 30 ⟨0, true, true⟩).1 h1⟩

/-- C4: an aimed projectile's initial velocity is the normalized direction
from shooter to target scaled by the speed: its magnitude is the speed
magnitude, and the space-game shot from (100,100) at (100,0) gets velocity
(0, -12). -/
theorem aimed_velocity_magnitude :
    (∀ (s t : ℝ × ℝ) (sp : ℝ), s ≠ t → 0 ≤ sp →
      hypot (Projectile.init s t sp).vx (Projectile.init s t sp).vy = sp ∧
      (Projectile.init s t sp).vx
          = (t.1 - s.1) / hypot (t.1 - s.1) (t.2 - s.2) * sp ∧
      (Projectile.init s t sp).vy
          = (t.2 - s.2) / hypot (t.1 - s.1) (t.2 - s.2) * sp) ∧
    (∀ s t : ℝ × ℝ, ¬ hypot (t.1 - s.1) (t.2 - s.2) ≤ 0.1 →
      hypot (Space.fireVelocity s t).1 (Space.fireVelocity s t).2
        = Space.BULLET_SPEED_MAG) ∧
    Space.fireVelocity (100, 100) (100, 0) = (0, -12) := by
  refine ⟨?_, ?_, ?_⟩
  · intro s t sp hst hsp
    have hne : ¬(t.1 - s.1 = 0 ∧ t.2 - s.2 = 0) := by
      rintro ⟨h1, h2⟩
      exact hst (Prod.ext_iff.mpr ⟨by linarith, by linarith⟩).symm
    have h0 : hypot (t.1 - s.1) (t.2 - s.2) ≠ 0 :=
      ne_of_gt (hypot_pos_of_ne _ _ hne)
    unfold Projectile.init
    dsimp only
    rw [if_neg h0]
    exact ⟨hypot_scaled_velocity _ _ _ hne hsp, rfl, rfl⟩
  · intro s t hfar
    have hne : ¬(t.1 - s.1 = 0 ∧ t.2 - s.2 = 0) := by
      rintro ⟨h1, h2⟩
      apply hfar
      rw [h1, h2]
      rw [show hypot 0 0 = 0 by rw [hypot_abs_left]; norm_num]
      norm_num
    unfold Space.fireVelocity
    dsimp only
    rw [if_neg hfar]
    exact hypot_scaled_velocity _ _ _ hne (by norm_num [Space.BULLET_SPEED_MAG])
  · unfold Space.fireVelocity
    have hd : hypot ((100:ℝ) - 100) ((0:ℝ) - 100) = 100 := by
      rw [show (100:ℝ) - 100 = 0 by ring, hypot_abs_right]
      norm_num
    dsimp only
    rw [hd]
    norm_num [Space.BULLET_SPEED_MAG, Prod.ext_iff]

/-- C4 witness: shooter (0,0), target (3,4), speed 5 (a 3-4-5 triangle). -/
theorem aimed_velocity_magnitude_witness :
    ((0:ℝ), (0:ℝ)) ≠ ((3:ℝ), (4:ℝ)) ∧ (0:ℝ) ≤ 5 ∧
      hypot (Projectile.init ((0:ℝ), (0:ℝ)) (3, 4) 5).vx
          (Projectile.init ((0:ℝ), (0:ℝ)) (3, 4) 5).vy = 5 :=
  ⟨by norm_num [Prod.ext_iff], by norm_num,
    (aimed_velocity_magnitude.1 ((0:ℝ), (0:ℝ)) (3, 4) 5
      (by norm_num [Prod.ext_iff]) (by norm_num)).1⟩

/-- C3 counterexample: a tower projectile created with shooter equal to
target has velocity `(0, 0)` (the code substitutes distance `1.0`), not the
straight-up `(0, -speed_magnitude)` the claim asserts. -/
theorem tower_degenerate_velocity_zero :
    (Projectile.init ((0:ℝ), (0:ℝ)) ((0:ℝ), (0:ℝ)) 12).vx = 0 ∧
    (Projectile.init ((0:ℝ), (0:ℝ)) ((0:ℝ), (0:ℝ)) 12).vy = 0 ∧
    ¬ ((Projectile.init ((0:ℝ), (0:ℝ)) ((0:ℝ), (0:ℝ)) 12).vx = 0 ∧
       (Projectile.init ((0:ℝ), (0:ℝ)) ((0:ℝ), (0:ℝ)) 12).vy = -12) := by
  unfold Projectile.init
  norm_num [hypot]

/-- C3 amended: only the space game's firing code falls back to straight-up
`(0, -speed_magnitude)` for a (near-)coincident target; the tower-defense
projectile instead gets the zero velocity in the degenerate case. -/
theorem degenerate_fire_fallback :
    (∀ s t : ℝ × ℝ, hypot (t.1 - s.1) (t.2 - s.2) ≤ 0.1 →
      Space.fireVelocity s t = (0, -Space.BULLET_SPEED_MAG)) ∧
    (∀ (c : ℝ × ℝ) (sp : ℝ),
      (Projectile.init c c sp).vx = 0 ∧ (Projectile.init c c sp).vy = 0) := by
  constructor
  · intro s t h
    unfold Space.fireVelocity
    dsimp only
    rw [if_pos h]
  · intro c sp
    unfold Projectile.init
    norm_num [hypot]

/-- C3 witness: firing at a coincident target from (5,5) yields (0,-12). -/
theorem degenerate_fire_fallback_witness :
    hypot ((5:ℝ) - 5) ((5:ℝ) - 5) ≤ 0.1 ∧
      Space.fireVelocity (5, 5) (5, 5) = (0, -Space.BULLET_SPEED_MAG) := by
  have h : hypot ((5:ℝ) - 5) ((5:ℝ) - 5) ≤ 0.1 := by
    rw [show (5:ℝ) - 5 = 0 by ring, hypot_abs_left]
    norm_num
  exact ⟨h, degenerate_fire_fallback.1 (5, 5) (5, 5) h⟩

/-- C2 amended: after each per-tick update the integer render position is the
float position truncated toward zero (Python `int()`), and the float position
is advanced purely from the previous float position and the velocity. -/
theorem render_is_truncated_float :
    (∀ (sw sh : ℤ) (b : Space.Bullet),
      (Space.Bullet.update sw sh b).cx = pyInt (Space.Bullet.update sw sh b).posx ∧
      (Space.Bullet.update sw sh b).cy = pyInt (Space.Bullet.update sw sh b).posy ∧
      (Space.Bullet.update sw sh b).posx = b.posx + b.vx ∧
      (Space.Bullet.update sw sh b).posy = b.posy + b.vy) ∧
    (∀ (e : Enemy) (dt : ℝ), e.dead = false → e.path.isEmpty = false →
      (e.update dt).rectCenter =
        (pyInt (e.update dt).pos.1, pyInt (e.update dt).pos.2)) ∧
    (∀ (p : Projectile) (dt : ℝ) (q : Projectile), p.update dt = some q →
      q.rectCenter = (pyInt q.pos.1, pyInt q.pos.2) ∧
      q.pos = (p.pos.1 + p.vx * dt, p.pos.2 + p.vy * dt)) := by
  refine ⟨?_, ?_, ?_⟩
  · intro sw sh b
    unfold Space.Bullet.update
    exact ⟨rfl, rfl, rfl, rfl⟩
  · intro e dt h1 h2
    unfold Enemy.update
    rw [h1, h2]
    simp only [Bool.false_eq_true, if_false]
  · intro p dt q h
    unfold Projectile.update at h
    dsimp only at h
    split_ifs at h
    rw [Option.some.injEq] at h
    subst h
    exact ⟨rfl, rfl⟩

/-- C2 witness at a concrete live enemy. -/
theorem render_is_truncated_float_witness :
    (Enemy.init sqPath 10).dead = false ∧
    (Enemy.init sqPath 10).path.isEmpty = false ∧
    ((Enemy.init sqPath 10).update 1).rectCenter =
      (pyInt ((Enemy.init sqPath 10).update 1).pos.1,
       pyInt ((Enemy.init sqPath 10).update 1).pos.2) :=
  ⟨rfl, rfl, render_is_truncated_float.2.1 (Enemy.init sqPath 10) 1 rfl rfl⟩

/-- C2 counterexample: the render position is not `round` of the float
position: a bullet whose float y becomes 5.7 renders at y = 5, while
round-to-nearest gives 6. -/
theorem render_not_round_counterexample :
    (Space.Bullet.update 800 600 (Space.Bullet.init 0 5 0 0.7 6 12)).posy = 5.7 ∧
    (Space.Bullet.update 800 600 (Space.Bullet.init 0 5 0 0.7 6 12)).cy = 5 ∧
    round ((Space.Bullet.update 800 600 (Space.Bullet.init 0 5 0 0.7 6 12)).posy)
      = 6 := by
  have h57 : ((5:ℤ):ℝ) + 0.7 = 5.7 := by norm_num
  have hfloor : pyInt (5.7:ℝ) = 5 := by
    unfold pyInt
    rw [if_pos (by norm_num), Int.floor_eq_iff]
    norm_num
  have hround : round (5.7:ℝ) = 6 := by
    rw [round_eq, show (5.7:ℝ) + 1 / 2 = 6.2 by norm_num, Int.floor_eq_iff]
    norm_num
  unfold Space.Bullet.update Space.Bullet.init
  dsimp only
  rw [h57]
  exact ⟨rfl, hfloor, hround⟩

/-- C7 counterexample: one tick of `dt = 4` at speed 10 advances by the full
arc length 40 of the square path, but the per-tick step clamps at the next
waypoint: the follower ends at waypoint 1, position (10, 0), not back at
waypoint 0. -/
theorem loop_total_arc_single_tick :
    ((Enemy.init sqPath 10).update 4).path_index = 1 ∧
    ((Enemy.init sqPath 10).update 4).pos = (10, 0) ∧
    ((Enemy.init sqPath 10).update 4).pos ≠ ((0:ℝ), (0:ℝ)) := by
  have h : (Enemy.init sqPath 10).update 4 =
      ⟨sqPath, 10, 1, false, none, false, (10, 0), (pyInt 10, pyInt 0)⟩ := by
    unfold Enemy.init Enemy.update
    norm_num [sqPath, List.getD, hypot_abs_left, hypot_abs_right]
  rw [h]
  norm_num [Prod.ext_iff]

/-- C7 amended: the per-tick advance clamps at the next waypoint (excess step
is dropped), so covering the total arc length returns the follower to
waypoint 0 when the ticks align with the segments: on the square path at
speed 10 with dt = 1 per tick, four ticks return it to (0, 0), index 0. -/
theorem loop_square_four_ticks :
    (((((Enemy.init sqPath 10).update 1).update 1).update 1).update 1).pos
        = (0, 0) ∧
    (((((Enemy.init sqPath 10).update 1).update 1).update 1).update 1).path_index
        = 0 := by
  have s1 : (Enemy.init sqPath 10).update 1 =
      ⟨sqPath, 10, 1, false, none, false, (10, 0), (pyInt 10, pyInt 0)⟩ := by
    unfold Enemy.init Enemy.update
    norm_num [sqPath, List.getD, hypot_abs_left, hypot_abs_right]
  have s2 : Enemy.update
      ⟨sqPath, 10, 1, false, none, false, (10, 0), (pyInt 10, pyInt 0)⟩ 1 =
      ⟨sqPath, 10, 2, false, none, false, (10, 10), (pyInt 10, pyInt 10)⟩ := by
    unfold Enemy.update
    norm_num [sqPath, List.getD, hypot_abs_left, hypot_abs_right]
  have s3 : Enemy.update
      ⟨sqPath, 10, 2, false, none, false, (10, 10), (pyInt 10, pyInt 10)⟩ 1 =
      ⟨sqPath, 10, 3, false, none, false, (0, 10), (pyInt 0, pyInt 10)⟩ := by
    unfold Enemy.update
    norm_num [sqPath, List.getD, hypot_abs_left, hypot_abs_right]
  have s4 : Enemy.update
      ⟨sqPath, 10, 3, false, none, false, (0, 10), (pyInt 0, pyInt 10)⟩ 1 =
      ⟨sqPath, 10, 0, false, none, false, (0, 0), (pyInt 0, pyInt 0)⟩ := by
    unfold Enemy.update
    norm_num [sqPath, List.getD, hypot_abs_left, hypot_abs_right]
  rw [s1, s2, s3, s4]
  exact ⟨rfl, rfl⟩

/-! ### The tower projectile never overshoots its target snapshot -/

theorem proj_init_inv (s t : ℝ × ℝ) (sp : ℝ) (hst : s ≠ t) :
    ProjInv s t sp (Projectile.init s t sp) := by
  have hne : ¬(t.1 - s.1 = 0 ∧ t.2 - s.2 = 0) := by
    rintro ⟨h1, h2⟩
    exact hst (Prod.ext_iff.mpr ⟨by linarith, by linarith⟩).symm
  have h0 : hypot (t.1 - s.1) (t.2 - s.2) ≠ 0 :=
    ne_of_gt (hypot_pos_of_ne _ _ hne)
  unfold Projectile.init ProjInv
  dsimp only
  rw [if_neg h0]
  refine ⟨rfl, rfl, rfl, 0, le_rfl, one_pos, ?_⟩
  rw [Prod.ext_iff]
  constructor <;> [skip; skip] <;> dsimp <;> ring

theorem proj_step_inv (s t : ℝ × ℝ) (sp dt : ℝ) (hsp : 0 ≤ sp) (hst : s ≠ t)
    (hdt : 0 ≤ dt) (p q : Projectile) (hp : ProjInv s t sp p)
    (h : p.update dt = some q) : ProjInv s t sp q := by
  obtain ⟨htgt, hvx, hvy, k, hk0, hk1, hpos⟩ := hp
  have hne : ¬(t.1 - s.1 = 0 ∧ t.2 - s.2 = 0) := by
    rintro ⟨h1, h2⟩
    exact hst (Prod.ext_iff.mpr ⟨by linarith, by linarith⟩).symm
  have hDpos : 0 < hypot (t.1 - s.1) (t.2 - s.2) := hypot_pos_of_ne _ _ hne
  have hp1 : p.pos.1 = s.1 + k * (t.1 - s.1) := by rw [hpos]
  have hp2 : p.pos.2 = s.2 + k * (t.2 - s.2) := by rw [hpos]
  have hrdx : p.target.1 - p.pos.1 = (1 - k) * (t.1 - s.1) := by
    rw [htgt, hp1]; ring
  have hrdy : p.target.2 - p.pos.2 = (1 - k) * (t.2 - s.2) := by
    rw [htgt, hp2]; ring
  have hsx : p.vx * dt = sp * dt / hypot (t.1 - s.1) (t.2 - s.2) * (t.1 - s.1) := by
    rw [hvx]; ring
  have hsy : p.vy * dt = sp * dt / hypot (t.1 - s.1) (t.2 - s.2) * (t.2 - s.2) := by
    rw [hvy]; ring
  have hdist : hypot (p.target.1 - p.pos.1) (p.target.2 - p.pos.2)
      = (1 - k) * hypot (t.1 - s.1) (t.2 - s.2) := by
    rw [hrdx, hrdy, hypot_smul, abs_of_nonneg (by linarith)]
  have hstep : hypot (p.vx * dt) (p.vy * dt) = sp * dt := by
    rw [hsx, hsy, hypot_smul,
      abs_of_nonneg (div_nonneg (mul_nonneg hsp hdt) hDpos.le),
      div_mul_cancel₀ _ (ne_of_gt hDpos)]
  unfold Projectile.update at h
  dsimp only at h
  split_ifs at h with hc
  rw [Option.some.injEq] at h
  subst h
  rw [ge_iff_le, not_le, hstep, hdist] at hc
  have hkd : sp * dt / hypot (t.1 - s.1) (t.2 - s.2) < 1 - k :=
    (div_lt_iff hDpos).mpr (by linarith)
  refine ⟨htgt, hvx, hvy, k + sp * dt / hypot (t.1 - s.1) (t.2 - s.2),
    add_nonneg hk0 (div_nonneg (mul_nonneg hsp hdt) hDpos.le), by linarith, ?_⟩
  dsimp only
  rw [Prod.ext_iff]
  constructor
  · dsimp only
    rw [hp1, hsx]; ring
  · dsimp only
    rw [hp2, hsy]; ring

theorem proj_run_inv (s t : ℝ × ℝ) (sp : ℝ) (hsp : 0 ≤ sp) (hst : s ≠ t) :
    ∀ (dts : List ℝ) (p : Projectile), (∀ d ∈ dts, 0 ≤ d) → ProjInv s t sp p →
      ∀ q, Projectile.run p dts = some q → ProjInv s t sp q := by
  intro dts
  induction dts with
  | nil =>
    intro p _ hp q h
    unfold Projectile.run at h
    rw [Option.some.injEq] at h
    subst h
    exact hp
  | cons d rest ih =>
    intro p hd hp q h
    unfold Projectile.run at h
    cases hu : p.update d with
    | none => rw [hu] at h; cases h
    | some p' =>
      rw [hu] at h
      exact ih p' (fun x hx => hd x (List.mem_cons_of_mem _ hx))
        (proj_step_inv s t sp d hsp hst (hd d (List.mem_cons_self _ _)) p p' hp hu)
        q h

/-- C10: a tower projectile aims at the fixed target snapshot stored at
creation; on each tick it dies without moving when the step length reaches
the remaining distance and otherwise advances by the step, so along any
sequence of nonnegative tick durations a surviving projectile stays strictly
between the shooter and the target point, never reaching the target. -/
theorem projectile_never_overshoots :
    (∀ (p : Projectile) (dt : ℝ), 0 ≤ dt →
      (hypot p.vx p.vy * dt ≥
          hypot (p.target.1 - p.pos.1) (p.target.2 - p.pos.2) →
        p.update dt = none) ∧
      (hypot p.vx p.vy * dt <
          hypot (p.target.1 - p.pos.1) (p.target.2 - p.pos.2) →
        p.update dt = some { p with
          pos := (p.pos.1 + p.vx * dt, p.pos.2 + p.vy * dt)
          rectCenter := (pyInt (p.pos.1 + p.vx * dt),
                         pyInt (p.pos.2 + p.vy * dt)) })) ∧
    (∀ (s t : ℝ × ℝ) (sp : ℝ) (dts : List ℝ) (q : Projectile),
      0 ≤ sp → s ≠ t → (∀ d ∈ dts, 0 ≤ d) →
      Projectile.run (Projectile.init s t sp) dts = some q →
      q.target = t ∧
      (∃ k, 0 ≤ k ∧ k < 1 ∧
        q.pos = (s.1 + k * (t.1 - s.1), s.2 + k * (t.2 - s.2))) ∧
      q.pos ≠ t) := by
  constructor
  · intro p dt hdt
    have hs : hypot (p.vx * dt) (p.vy * dt) = hypot p.vx p.vy * dt := by
      rw [show p.vx * dt = dt * p.vx by ring, show p.vy * dt = dt * p.vy by ring,
        hypot_smul, abs_of_nonneg hdt]
      ring
    constructor
    · intro hge
      unfold Projectile.update
      dsimp only
      rw [if_pos (by rwa [hs])]
    · intro hlt
      unfold Projectile.update
      dsimp only
      rw [if_neg (by rw [ge_iff_le, not_le, hs]; exact hlt)]
  · intro s t sp dts q hsp hst hdts hrun
    obtain ⟨htgt, hvx, hvy, k, hk0, hk1, hpos⟩ :=
      proj_run_inv s t sp hsp hst dts (Projectile.init s t sp) hdts
        (proj_init_inv s t sp hst) q hrun
    have hne : ¬(t.1 - s.1 = 0 ∧ t.2 - s.2 = 0) := by
      rintro ⟨h1, h2⟩
      exact hst (Prod.ext_iff.mpr ⟨by linarith, by linarith⟩).symm
    refine ⟨htgt, ⟨k, hk0, hk1, hpos⟩, ?_⟩
    intro heq
    rw [hpos, Prod.ext_iff] at heq
    obtain ⟨h1, h2⟩ := heq
    dsimp only at h1 h2
    apply hne
    constructor
    · have : (1 - k) * (t.1 - s.1) = 0 := by linarith [h1]
      rcases mul_eq_zero.mp this with hk | hx
      · exact absurd hk (by intro hk0'; linarith)
      · exact hx
    · have : (1 - k) * (t.2 - s.2) = 0 := by linarith [h2]
      rcases mul_eq_zero.mp this with hk | hx
      · exact absurd hk (by intro hk0'; linarith)
      · exact hx

/-- C10 witness: fired from (0,0) at (1,0) with speed 1, over no ticks the
projectile sits at the shooter, strictly short of the target. -/
theorem projectile_never_overshoots_witness :
    (0:ℝ) ≤ 1 ∧ ((0:ℝ), (0:ℝ)) ≠ ((1:ℝ), (0:ℝ)) ∧
    (∀ d ∈ ([] : List ℝ), (0:ℝ) ≤ d) ∧
    ((Projectile.init ((0:ℝ), (0:ℝ)) (1, 0) 1).target = ((1:ℝ), (0:ℝ)) ∧
      (∃ k, 0 ≤ k ∧ k < 1 ∧
        (Projectile.init ((0:ℝ), (0:ℝ)) (1, 0) 1).pos
          = ((0:ℝ) + k * ((1:ℝ) - 0), (0:ℝ) + k * ((0:ℝ) - 0))) ∧
      (Projectile.init ((0:ℝ), (0:ℝ)) (1, 0) 1).pos ≠ ((1:ℝ), (0:ℝ))) :=
  ⟨by norm_num, by norm_num [Prod.ext_iff], by simp,
    projectile_never_overshoots.2 ((0:ℝ), (0:ℝ)) (1, 0) 1 []
      (Projectile.init ((0:ℝ), (0:ℝ)) (1, 0) 1)
      (by norm_num) (by norm_num [Prod.ext_iff]) (by simp) rfl⟩

end

end QCG
